import Mathlib

/-!
Verification of the SkateChat group-chat engine
(src/skate/projects/js/chat.js) against its specification.

The JavaScript module `SkateChat` is shallow-embedded below: its pure
helpers become Lean functions and its stateful operations become explicit
state-passing functions on a `ChatState` record.  JavaScript numbers that
flow through 32-bit bitwise operators are modelled as `Nat` reduced
modulo 2^32 at every operation; JavaScript strings are modelled as Lean
`String` (all strings occurring in the claims are ASCII, where the UTF-16
view used by JS `.length`, `.slice` and `charCodeAt` coincides with the
code-point view used here).  Fallible operations return `Option`/`Except`;
a thrown-and-caught JS exception is the `none` branch.

External collaborators that are not part of the repository (the NostrTools
NIP-44 cryptography, Web Crypto SHA-256, event signatures) are modelled
from the specification; each such definition carries a doc comment
starting with "Modelled from the spec:".  Everything else is translated
directly from chat.js.
-/

namespace SkateChat

/-! ## Association-list helpers

JavaScript plain objects used as string-keyed maps (`state.groups`,
`group.votes`, `group.memberPubkeys`, ...) preserve insertion order and
update-in-place; they are modelled as association lists with
first-match lookup, in-place update of an existing key, and append of a
fresh key. -/

/-- Lookup in an insertion-ordered object: first binding of the key wins. -/
def lookupA {α β : Type} [DecidableEq α] (l : List (α × β)) (k : α) : Option β :=
  match l with
  | [] => none
  | (k', v) :: t => if k' = k then some v else lookupA t k

/-- Lookup with a default value (models `obj[k] || dflt` patterns). -/
def lookupD {α β : Type} [DecidableEq α] (l : List (α × β)) (k : α) (d : β) : β :=
  (lookupA l k).getD d

/-- Overwrite the value of an existing key, keeping its position. -/
def setA {α β : Type} [DecidableEq α] (l : List (α × β)) (k : α) (v : β) : List (α × β) :=
  l.map fun p => if p.1 = k then (k, v) else p

/-- JavaScript `obj[k] = v`: update in place if present, else append. -/
def upsertA {α β : Type} [DecidableEq α] (l : List (α × β)) (k : α) (v : β) : List (α × β) :=
  if (lookupA l k).isSome then setA l k v else l ++ [(k, v)]

/-! ## Crypto helpers from chat.js (`Crypto` object) -/

namespace Crypto

/-- JavaScript `s.slice(0, n)` on an ASCII string. -/
def jsSlice (s : String) (n : Nat) : String := ⟨s.data.take n⟩

/-- Hexadecimal value of one character, as accepted by `parseInt(_, 16)`
(case-insensitive); `none` for a non-hex character.  The three ranges are
the code points of 0-9, a-f and A-F. -/
def hexVal? (c : Char) : Option Nat :=
  if 48 ≤ c.toNat ∧ c.toNat ≤ 57 then some (c.toNat - 48)
  else if 97 ≤ c.toNat ∧ c.toNat ≤ 102 then some (c.toNat - 87)
  else if 65 ≤ c.toNat ∧ c.toNat ≤ 70 then some (c.toNat - 55)
  else none

/-- JavaScript `parseInt(two-char-string, 16)` followed by storage into a
`Uint8Array` slot: `parseInt` reads the longest valid prefix, gives `NaN`
when the first character is not a hex digit, and `NaN` is stored as 0. -/
def parseHexPair (c₁ c₂ : Char) : Nat :=
  match hexVal? c₁, hexVal? c₂ with
  | none, _ => 0
  | some v₁, none => v₁
  | some v₁, some v₂ => 16 * v₁ + v₂

/-- Split a character list into consecutive pairs of hex digits; `none` on
odd length (in chat.js `new Uint8Array(hex.length / 2)` throws a
`RangeError` on a fractional length). -/
def pairBytes : List Char → Option (List Nat)
  | [] => some []
  | [_] => none
  | c₁ :: c₂ :: rest => (pairBytes rest).map fun bs => parseHexPair c₁ c₂ :: bs

/-- `Crypto.hexToBytes` from chat.js. -/
def hexToBytes (s : String) : Option (List Nat) := pairBytes s.data

/-- Lower-case hex digit of a value below 16 (as produced by JS
`toString(16)`). -/
def hexDigit (n : Nat) : Char :=
  if n < 10 then Char.ofNat (48 + n) else Char.ofNat (87 + n)

/-- Two-character hex rendering of one byte, `b.toString(16).padStart(2, '0')`
for `b < 256`. -/
def byteHex (n : Nat) : List Char := [hexDigit (n / 16), hexDigit (n % 16)]

/-- `Crypto.bytesToHex` from chat.js (bytes come from a `Uint8Array`, hence
are below 256). -/
def bytesToHex (bs : List Nat) : String := ⟨bs.foldr (fun n acc => byteHex n ++ acc) []⟩

/-- JavaScript `Math.imul`: 32-bit integer multiplication.  All hash state
is kept in the unsigned 32-bit representative, which the source reads back
with `>>> 0`. -/
def imul (a b : Nat) : Nat := a * b % 4294967296

/-- One round of the finalizer loop in `Crypto.hashSync` (xor-shift and
multiply mixing). -/
def mixRound (h : Nat) : Nat :=
  let h₁ := imul (Nat.xor h (h / 65536)) 0x85ebca6b
  let h₂ := imul (Nat.xor h₁ (h₁ / 8192)) 0xc2b2ae35
  Nat.xor h₂ (h₂ / 65536)

/-- `(h >>> 0).toString(16).padStart(8, '0')` for `h < 2^32`. -/
def toHex8 (n : Nat) : String :=
  ⟨((List.range 8).reverse).map fun i => hexDigit (n / 16 ^ i % 16)⟩

/-- `Crypto.hashSync` from chat.js: an FNV-1a pass over the UTF-16 code
units followed by four finalizer rounds, each contributing 8 hex chars. -/
def hashSync (s : String) : String :=
  let h₀ := s.data.foldl (fun h c => imul (Nat.xor h c.toNat) 0x01000193) 0x811c9dc5
  ((List.range 4).foldl
    (fun (acc : String × Nat) _ =>
      let h := mixRound acc.2
      (acc.1 ++ toHex8 h, h))
    ("", h₀)).1

/-- `Crypto.deriveGroupId` from chat.js: first 12 chars of `hashSync`. -/
def deriveGroupId (secret : String) : String := jsSlice (hashSync secret) 12

/-- Modelled from the spec: `NostrTools.getPublicKey` (secp256k1 public key
of a 32-byte secret) is external to the repository.  The spec requires it
to be a deterministic keypair derivation; it is modelled as an injective
encoding of the secret bytes. -/
def getPublicKey (sk : List Nat) : String := bytesToHex sk

/-- Lexicographic strict order on character lists (by code point), used
only to pick a canonical representative of an unordered pair. -/
def lexLt : List Char → List Char → Bool
  | [], [] => false
  | [], _ :: _ => true
  | _ :: _, [] => false
  | a :: as, b :: bs =>
    if a.toNat < b.toNat then true
    else if b.toNat < a.toNat then false
    else lexLt as bs

/-- Unordered pair of strings, used as the carrier of a NIP-44
conversation key. -/
def sort2 (a b : String) : String × String :=
  if lexLt a.data b.data then (a, b) else (b, a)

/-- Modelled from the spec: `NostrTools.nip44.getConversationKey` is
external to the repository.  The spec requires that "both directions must
derive the same symmetric key", i.e. the key depends only on the unordered
pair of the two parties' public keys; it is modelled as that unordered
pair. -/
def getConversationKey (sk : List Nat) (pk : String) : String × String :=
  sort2 (getPublicKey sk) pk

/-- Modelled from the spec: a NIP-44 v2 ciphertext (ChaCha20-Poly1305
authenticated encryption) is external to the repository.  The spec's
guarantee is confidentiality and integrity: decryption succeeds exactly
under the conversation key that produced the ciphertext and fails closed
otherwise; the ciphertext is modelled as the pair of that key and the
plaintext.  `JSON.stringify`/`JSON.parse` round the plaintext through a
string on the wire; the composition is the identity and the payload is
kept typed. -/
structure Cipher (α : Type) where
  key : String × String
  payload : α
deriving DecidableEq

/-- `Crypto.encryptForGroup` from chat.js: derive a deterministic keypair
from the first 64 hex chars of the group secret and encrypt under the
self-conversation key.  `none` models the exception thrown on an
odd-length byte string. -/
def encryptForGroup {α : Type} (plaintext : α) (groupSecretHex : String) : Option (Cipher α) :=
  match hexToBytes (jsSlice groupSecretHex 64) with
  | none => none
  | some secretBytes =>
    some ⟨getConversationKey secretBytes (getPublicKey secretBytes), plaintext⟩

/-- `Crypto.decryptForGroup` from chat.js: same key derivation inside a
try/catch that turns every failure into the `null` sentinel (`none`). -/
def decryptForGroup {α : Type} (c : Cipher α) (groupSecretHex : String) : Option α :=
  match hexToBytes (jsSlice groupSecretHex 64) with
  | none => none
  | some secretBytes =>
    if c.key = getConversationKey secretBytes (getPublicKey secretBytes) then
      some c.payload
    else none

/-- `Crypto.encryptDm` from chat.js: NIP-44 encryption under the pairwise
ECDH conversation key. -/
def encryptDm {α : Type} (plaintext : α) (senderSecretKey : List Nat)
    (recipientPubkey : String) : Cipher α :=
  ⟨getConversationKey senderSecretKey recipientPubkey, plaintext⟩

/-- `Crypto.decryptDm` from chat.js.  The arguments are optional because
the caller may pass `undefined`/`null` values (missing payload, missing
key, missing recipient tag); inside the source's try/catch every such
failure returns the `null` sentinel. -/
def decryptDm {α : Type} (c : Option (Cipher α)) (sk : Option (List Nat))
    (pk : Option String) : Option α :=
  match c, sk, pk with
  | some c, some sk, some pk =>
    if c.key = getConversationKey sk pk then some c.payload else none
  | _, _, _ => none

end Crypto

/-! ## Profanity filter from chat.js (`Filter` object)

`window.PROFANITY_LIST` is a global that may be absent; it is passed
explicitly as `Option (List String)` (`none` models `undefined`). -/

namespace Filter

/-- Whitespace for the `/\s+/` separator (the characters relevant to the
claims; JS `\s` also matches rarer Unicode spaces). -/
def isWsChar (c : Char) : Bool := c == ' ' || c == '\t' || c == '\n' || c == '\r'

/-- JavaScript `lower.includes(w)`: substring test. -/
def containsSub (w : List Char) : List Char → Bool
  | [] => w.isEmpty
  | c :: cs => w.isPrefixOf (c :: cs) || containsSub w cs

/-- Worker for `split(/\s+/)`: a maximal whitespace run separates tokens,
and a leading or trailing run contributes an empty token, as in JS.  The
fuel argument (instantiated with the input length, which each step
consumes at least one character of) keeps the recursion structural. -/
def splitWsAux (cur : List Char) : Nat → List Char → List (List Char)
  | _, [] => [cur.reverse]
  | 0, _ :: _ => [cur.reverse]
  | fuel + 1, c :: cs =>
    if isWsChar c then cur.reverse :: splitWsAux [] fuel (cs.dropWhile isWsChar)
    else splitWsAux (c :: cur) fuel cs

/-- JavaScript `lower.split(/\s+/)`. -/
def splitWs (l : List Char) : List (List Char) := splitWsAux [] l.length l

/-- JavaScript `s.toLowerCase()` on ASCII text. -/
def lowerStr (s : String) : String := ⟨s.data.map Char.toLower⟩

/-- `Filter.check` from chat.js: false on empty text or when no profanity
list is configured; otherwise true iff some listed word occurs in the
lower-cased text as a substring or as a whitespace-delimited token. -/
def check (profanityList : Option (List String)) (text : String) : Bool :=
  if text = "" then false
  else
    match profanityList with
    | none => false
    | some l =>
      let lower := lowerStr text
      l.any fun word =>
        let w := lowerStr word
        containsSub w.data lower.data || (splitWs lower.data).contains w.data

/-- Worker for the case-insensitive replacement: the fuel argument
(instantiated with the input length, which each step consumes at least
one character of) keeps the recursion structural. -/
def replaceCIAux (w rep : List Char) : Nat → List Char → List Char
  | _, [] => []
  | 0, l => l
  | fuel + 1, c :: cs =>
    if w ≠ [] ∧ ((c :: cs).take w.length).map Char.toLower = w.map Char.toLower then
      rep ++ replaceCIAux w rep fuel (cs.drop (w.length - 1))
    else
      c :: replaceCIAux w rep fuel cs

/-- Case-insensitive global replacement of the literal word `w` by `rep`,
modelling `result.replace(new RegExp(escaped w, 'gi'), rep)`: the scan is
left to right, a match consumes `w.length` characters, and an empty
pattern matches nothing visible (the replacement for it is also empty). -/
def replaceCI (w rep l : List Char) : List Char := replaceCIAux w rep l.length l

/-- `Filter.clean` from chat.js: returns the text unchanged on empty text
or a missing profanity list; otherwise each listed word is replaced,
case-insensitively, by a run of `*` of the same length. -/
def clean (profanityList : Option (List String)) (text : String) : String :=
  match profanityList with
  | none => text
  | some l =>
    if text = "" then text
    else l.foldl
      (fun acc word => ⟨replaceCI word.data (List.replicate word.length '*') acc.data⟩)
      text

end Filter

/-! ## Data model

Wire events, decrypted payloads and local state, translated from the
`state` object and the record literals of chat.js. -/

/-- `CONFIG.MAX_GROUPS`. -/
def MAX_GROUPS : Nat := 10

/-- `CONFIG.MAX_MESSAGES`. -/
def MAX_MESSAGES : Nat := 500

/-- `CONFIG.MAX_MESSAGE_LENGTH`. -/
def MAX_MESSAGE_LENGTH : Nat := 500

namespace EVENT_KINDS

/-- `CONFIG.EVENT_KINDS.GROUP_MSG`. -/
def GROUP_MSG : Nat := 20100

/-- `CONFIG.EVENT_KINDS.DM`. -/
def DM : Nat := 20101

/-- `CONFIG.EVENT_KINDS.VOTE`. -/
def VOTE : Nat := 20102

/-- `CONFIG.EVENT_KINDS.SHARE`. -/
def SHARE : Nat := 20103

/-- `CONFIG.EVENT_KINDS.PRESENCE`. -/
def PRESENCE : Nat := 20104

end EVENT_KINDS

/-- Structured program data carried by a SHARE payload (`content.data`). -/
structure ShareData where
  activity : String := ""
  location : String := ""
  date : String := ""
  time : String := ""
  endTime : String := ""
deriving DecidableEq

/-- Inner payload of a direct message (`JSON.stringify({ text })` in
`sendDm`). -/
structure DmData where
  text : String := ""
deriving DecidableEq

/-- A decrypted event payload.  chat.js payloads are duck-typed JSON
objects; this record is the union of the fields the event router reads,
with each kind using its own subset (absent JS fields read as falsy
defaults).  The JS field `from` is called `fromName` here because `from`
is a Lean keyword. -/
structure Content where
  text : String := ""
  fromName : String := ""
  system : Bool := false
  programIndex : Nat := 0
  voted : Bool := false
  toName : String := ""
  dmPayload : Option (Crypto.Cipher DmData) := none
  data : Option ShareData := none
deriving DecidableEq

/-- A wire event as received from a relay.  `sigOk` is modelled from the
spec: `NostrTools.verifyEvent` is external to the repository, and the spec
requires events failing signature verification to be rejected, so an
event carries the outcome of that check. -/
structure Event where
  id : String
  pubkey : String
  kind : Nat
  created_at : Nat
  tags : List (List String) := []
  content : Crypto.Cipher Content
  sigOk : Bool := true

/-- A stored message record (the object literals passed to `addMessage`
and pushed onto DM threads; fields a given kind does not set keep their
falsy defaults). -/
structure Msg where
  id : String
  type : String := "chat"
  text : String := ""
  fromName : String := ""
  fromPubkey : String := ""
  mine : Bool := false
  system : Bool := false
  ts : Nat := 0
  data : Option ShareData := none
deriving DecidableEq

/-- A group or public-room record (`state.groups[gid]` /
`state.publicRooms[gid]`).  `processedIds` is the lazily-created
`_processedIds` dedupe set, modelled as an insertion-ordered list (a JS
`Set` iterates in insertion order); the lazily-added `unread`, `votes`,
`lastSeen` fields live here with their falsy defaults. -/
structure Group where
  id : String := ""
  name : String := ""
  secret : String := ""
  hasPassword : Bool := false
  isPublic : Bool := false
  roomKey : String := ""
  emoji : String := ""
  members : List String := []
  memberPubkeys : List (String × String) := []
  messages : List Msg := []
  votes : List (Nat × List String) := []
  connected : Bool := false
  lastSeen : List (String × Nat) := []
  processedIds : List String := []
  unread : Nat := 0

/-- A direct-message thread (`state.dmThreads[pubkey]`). -/
structure DmThread where
  groupId : String := ""
  name : String := ""
  messages : List Msg := []
  unread : Nat := 0

/-- The mutable module state of chat.js (the fields the claims touch;
relay sockets, timers and UI callbacks are I/O handles with no bearing on
the state transitions modelled here).  `myPublicKey`/`mySecretKey` are
`none` while the identity is uninitialized (`null` in the source). -/
structure ChatState where
  myName : String := ""
  mySecretKey : Option (List Nat) := none
  myPublicKey : Option String := none
  groups : List (String × Group) := []
  publicRooms : List (String × Group) := []
  activeGroupId : Option String := none
  activeIsPublic : Bool := false
  dmThreads : List (String × DmThread) := []
  activeDmRecipient : Option String := none
  publicRoomSecrets : List (String × String) := []

/-- `getGroupOrRoom` from chat.js: private groups shadow public rooms. -/
def getGroupOrRoom (st : ChatState) (gid : String) : Option Group :=
  match lookupA st.groups gid with
  | some g => some g
  | none => lookupA st.publicRooms gid

/-- Write back a group object that was obtained via `getGroupOrRoom`
(JS mutates the object in whichever map holds it). -/
def setGroupOrRoom (st : ChatState) (gid : String) (g : Group) : ChatState :=
  if (lookupA st.groups gid).isSome then { st with groups := setA st.groups gid g }
  else if (lookupA st.publicRooms gid).isSome then
    { st with publicRooms := setA st.publicRooms gid g }
  else st

/-- The lookup `isPublic ? state.publicRooms[groupId] : state.groups[groupId]`
used by `handleEvent` and `connectToRelays`. -/
def grpByFlag (st : ChatState) (gid : String) (isPublic : Bool) : Option Group :=
  if isPublic then lookupA st.publicRooms gid else lookupA st.groups gid

/-- Write back a group object obtained via `grpByFlag`. -/
def setGrpFlag (st : ChatState) (gid : String) (isPublic : Bool) (g : Group) : ChatState :=
  if isPublic then { st with publicRooms := setA st.publicRooms gid g }
  else { st with groups := setA st.groups gid g }

/-! ## Message insertion and the event router -/

/-- Timestamp order on messages (the comparator `(a, b) => a.ts - b.ts`). -/
def tsLe (a b : Msg) : Prop := a.ts ≤ b.ts

instance : DecidableRel tsLe := fun a b => Nat.decLe a.ts b.ts

instance : IsTotal Msg tsLe := ⟨fun a b => Nat.le_total a.ts b.ts⟩

instance : IsTrans Msg tsLe := ⟨fun _ _ _ => Nat.le_trans⟩

/-- `messages.sort((a, b) => a.ts - b.ts)`: ECMAScript `Array.prototype.sort`
is a stable sort, and a stable sort by a total preorder is extensionally
unique; insertion sort realizes it. -/
def sortByTs (l : List Msg) : List Msg := List.insertionSort tsLe l

/-- The message-list semantics of `addMessage` from chat.js: discard a
duplicate id, else push, trim to the last `MAX_MESSAGES` entries
(`slice(-MAX_MESSAGES)` — the trim happens before the sort), then sort by
claimed timestamp. -/
def insertMsg (msgs : List Msg) (m : Msg) : List Msg :=
  if msgs.any fun x => x.id == m.id then msgs
  else
    let pushed := msgs ++ [m]
    let trimmed :=
      if pushed.length > MAX_MESSAGES then pushed.drop (pushed.length - MAX_MESSAGES)
      else pushed
    sortByTs trimmed

/-- `addMessage` from chat.js: apply `insertMsg` to the group found by
`getGroupOrRoom` and bump its unread counter for a foreign, non-system
message in a non-focused group.  A duplicate id returns with no state
change at all. -/
def addMessage (st : ChatState) (gid : String) (m : Msg) : ChatState :=
  match getGroupOrRoom st gid with
  | none => st
  | some g =>
    if g.messages.any fun x => x.id == m.id then st
    else
      let unread :=
        if !m.mine && !m.system && st.activeGroupId != some gid then g.unread + 1
        else g.unread
      setGroupOrRoom st gid { g with messages := insertMsg g.messages m, unread := unread }

/-- `trackMember` from chat.js. -/
def trackMember (st : ChatState) (gid : String) (name pubkey : String) : ChatState :=
  match getGroupOrRoom st gid with
  | none => st
  | some g =>
    let g := if g.members.contains name then g else { g with members := g.members ++ [name] }
    let g := { g with memberPubkeys := upsertA g.memberPubkeys name pubkey }
    setGroupOrRoom st gid g

/-- The comparison `somePubkey === state.myPublicKey`: false whenever the
local key is still `null`. -/
def isMine (st : ChatState) (pk : String) : Bool :=
  match st.myPublicKey with
  | some mine => pk == mine
  | none => false

/-- The comparison `recipientPubkey === state.myPublicKey` where the
recipient slot of the `p` tag may be absent (JS `undefined`): false
whenever either side is missing. -/
def isRecipient (st : ChatState) (recipient : Option String) : Bool :=
  match recipient, st.myPublicKey with
  | some r, some mine => r == mine
  | _, _ => false

/-- `handleDmEvent` from chat.js.  The `p` tag's second slot may be absent
(JS `undefined`), hence `Option`; `toTag[1]` only flows onward when a
comparison against the local public key or a successful pairwise
decryption has forced it to be present, so the `getD` totalization below
is never reached with `none`. -/
def handleDmEvent (plist : Option (List String)) (st : ChatState) (gid : String)
    (event : Event) (content : Content) : ChatState :=
  match event.tags.find? (fun t => t.head? == some "p") with
  | none => st
  | some toTag =>
    let recipientPubkey : Option String := toTag[1]?
    let isForMe : Bool := isRecipient st recipientPubkey
    let isFromMe : Bool := isMine st event.pubkey
    if !isForMe && !isFromMe then st
    else
      let dmContent : Option DmData :=
        if isForMe then Crypto.decryptDm content.dmPayload st.mySecretKey (some event.pubkey)
        else Crypto.decryptDm content.dmPayload st.mySecretKey recipientPubkey
      match dmContent with
      | none => st
      | some dmData =>
        let otherPubkey : String := if isFromMe then recipientPubkey.getD "" else event.pubkey
        let fresh : Bool := (lookupA st.dmThreads otherPubkey).isNone
        let thread : DmThread :=
          match lookupA st.dmThreads otherPubkey with
          | some t => t
          | none =>
            { groupId := gid, name := if isFromMe then content.toName else content.fromName,
              messages := [], unread := 0 }
        let st :=
          if fresh then { st with dmThreads := st.dmThreads ++ [(otherPubkey, thread)] }
          else st
        if thread.messages.any fun x => x.id == event.id then st
        else
          let newMsg : Msg :=
            { id := event.id, text := Filter.clean plist dmData.text,
              fromName := content.fromName, mine := isFromMe, ts := event.created_at * 1000 }
          let msgs := thread.messages ++ [newMsg]
          let msgs := if msgs.length > 50 then msgs.drop (msgs.length - 50) else msgs
          let msgs := sortByTs msgs
          let unread :=
            if !isFromMe && st.activeDmRecipient != some otherPubkey then thread.unread + 1
            else thread.unread
          { st with dmThreads :=
              upsertA st.dmThreads otherPubkey { thread with messages := msgs, unread := unread } }

/-- `handleEvent` from chat.js: dedupe by event id first (the id is
recorded, and the recent-id window trimmed, before any validation), then
verify the signature, decrypt, and dispatch on the event kind. -/
def handleEvent (plist : Option (List String)) (gid : String) (event : Event)
    (isPublic : Bool) (st : ChatState) : ChatState :=
  match grpByFlag st gid isPublic with
  | none => st
  | some g =>
    if g.processedIds.contains event.id then st
    else
      let pids0 := g.processedIds ++ [event.id]
      let pids := if pids0.length > 500 then pids0.drop (pids0.length - 250) else pids0
      let g := { g with processedIds := pids }
      let st := setGrpFlag st gid isPublic g
      if !event.sigOk then st
      else
        match Crypto.decryptForGroup event.content g.secret with
        | none => st
        | some content =>
          if event.kind = EVENT_KINDS.GROUP_MSG then
            let st := addMessage st gid
              { id := event.id, type := "chat", text := Filter.clean plist content.text,
                fromName := content.fromName, fromPubkey := event.pubkey,
                mine := isMine st event.pubkey,
                system := content.system, ts := event.created_at * 1000 }
            trackMember st gid content.fromName event.pubkey
          else if event.kind = EVENT_KINDS.SHARE then
            let st := addMessage st gid
              { id := event.id, type := "share", text := content.text,
                fromName := content.fromName, fromPubkey := event.pubkey,
                mine := isMine st event.pubkey,
                ts := event.created_at * 1000, data := content.data }
            trackMember st gid content.fromName event.pubkey
          else if event.kind = EVENT_KINDS.VOTE then
            let idx := content.programIndex
            let tally := lookupD g.votes idx []
            let tally' :=
              if content.voted && !(tally.contains content.fromName) then
                tally ++ [content.fromName]
              else if !content.voted then tally.erase content.fromName
              else tally
            setGrpFlag st gid isPublic { g with votes := upsertA g.votes idx tally' }
          else if event.kind = EVENT_KINDS.DM then
            handleDmEvent plist st gid event content
          else if event.kind = EVENT_KINDS.PRESENCE then
            let st := trackMember st gid content.fromName event.pubkey
            match grpByFlag st gid isPublic with
            | none => st
            | some g =>
              setGrpFlag st gid isPublic
                { g with lastSeen := upsertA g.lastSeen content.fromName (event.created_at * 1000) }
          else st

/-! ## Publishing and the group registry -/

/-- The success condition of `publishEvent` from chat.js: a group record
and a local secret key must exist, and encrypting the payload under the
group secret must not throw.  (Socket fan-out is fire-and-forget: having
no open socket still returns true.) -/
def publishEventOk (st : ChatState) (gid : String) (content : Content) : Bool :=
  match getGroupOrRoom st gid, st.mySecretKey with
  | some g, some _ => (Crypto.encryptForGroup content g.secret).isSome
  | _, _ => false

/-- Result of a `voteTime` call: the successor state, the payload handed
to `publishEvent` (none when the call bails out before publishing), and
the boolean the source returns. -/
structure VoteOutcome where
  st : ChatState
  published : Option Content
  ok : Bool

/-- `voteTime` from chat.js: toggle the local voter-name tally for the
program index optimistically (append on vote, remove the first occurrence
on unvote), persist, then publish a VOTE payload describing the new
membership. -/
def voteTime (st : ChatState) (programIndex : Nat) : VoteOutcome :=
  match st.activeGroupId with
  | none => ⟨st, none, false⟩
  | some gid =>
    match getGroupOrRoom st gid with
    | none => ⟨st, none, false⟩
    | some g =>
      let tally := lookupD g.votes programIndex []
      let voted := !(tally.contains st.myName)
      let tally' := if voted then tally ++ [st.myName] else tally.erase st.myName
      let st' := setGroupOrRoom st gid { g with votes := upsertA g.votes programIndex tally' }
      let content : Content := { programIndex := programIndex, fromName := st.myName, voted := voted }
      ⟨st', some content, publishEventOk st' gid content⟩

/-- The secret-normalization prelude of `joinGroup`: a password hashes to
the secret; a 64-char case-insensitive hex string is lower-cased; any
other input is hashed.  `sha` stands for the external Web Crypto SHA-256
(`Crypto.sha256` in chat.js); every theorem below holds for an arbitrary
such function. -/
def normalizeSecret (sha : String → String) (secret : String) (password : Option String) :
    String :=
  match password with
  | some p => sha p
  | none =>
    if secret.length == 64 && secret.data.all fun c => (Crypto.hexVal? c).isSome then
      Filter.lowerStr secret
    else sha secret

/-- Result of `joinGroup`/`joinPublicRoom`.  `announcement` is the system
GROUP_MSG payload the call schedules for broadcast (`none` when the call
re-joins silently). -/
structure JoinResult where
  groupId : String
  alreadyJoined : Bool := false
  announcement : Option Content := none

/-- `joinGroup` from chat.js.  The capacity guard runs first; then the
input is normalized, the group id derived, and either the existing group
is switched to (silently) or a fresh record is created and a join
announcement scheduled. -/
def joinGroup (sha : String → String) (st : ChatState) (secret : String)
    (password : Option String) (customName : Option String) :
    Except String (ChatState × JoinResult) :=
  if st.groups.length ≥ MAX_GROUPS then .error "Max 10 private groups"
  else
    let actualSecret := normalizeSecret sha secret password
    let gid := Crypto.deriveGroupId actualSecret
    match lookupA st.groups gid with
    | some _ =>
      .ok ({ st with activeGroupId := some gid, activeIsPublic := false },
        { groupId := gid, alreadyJoined := true, announcement := none })
    | none =>
      let groupName := customName.getD "Skating Group"
      let g : Group :=
        { id := gid, name := groupName, secret := actualSecret,
          hasPassword := password.isSome, members := [st.myName],
          memberPubkeys := [(st.myName, st.myPublicKey.getD "")] }
      let st' :=
        { st with groups := st.groups ++ [(gid, g)],
                  activeGroupId := some gid, activeIsPublic := false }
      .ok (st',
        { groupId := gid, alreadyJoined := false,
          announcement := some
            { text := st.myName ++ " joined the group", fromName := st.myName, system := true } })

/-- `getShareUrl` from chat.js, reduced to its information content: the
fragment carrying the active private group's secret (origin and path are
browser environment). -/
def getShareUrl (st : ChatState) : Option String :=
  match st.activeGroupId with
  | none => none
  | some gid => (lookupA st.groups gid).map fun g => "#" ++ g.secret

/-- Result of `createGroup`.  The source's `exists` field is called
`alreadyExists` (`exists` is a Lean keyword). -/
structure CreateResult where
  groupId : String
  shareUrl : Option String := none
  alreadyExists : Bool := false
  announcement : Option Content := none

/-- `createGroup` from chat.js.  `rnd` stands for the fresh
`Crypto.randomHex(32)` secret drawn when no password is given. -/
def createGroup (plist : Option (List String)) (sha : String → String) (rnd : String)
    (st : ChatState) (nameOpt : Option String) (password : Option String) :
    Except String (ChatState × CreateResult) :=
  if st.groups.length ≥ MAX_GROUPS then .error "Max 10 private groups"
  else
    let name := nameOpt.getD "Skating Group"
    if Filter.check plist name then .error "Group name contains inappropriate content"
    else
      let secret := match password with | some p => sha p | none => rnd
      let gid := Crypto.deriveGroupId secret
      match lookupA st.groups gid with
      | some _ =>
        let st' := { st with activeGroupId := some gid, activeIsPublic := false }
        .ok (st', { groupId := gid, shareUrl := getShareUrl st', alreadyExists := true })
      | none =>
        let g : Group :=
          { id := gid, name := name, secret := secret, hasPassword := password.isSome,
            members := [st.myName], memberPubkeys := [(st.myName, st.myPublicKey.getD "")] }
        let st' :=
          { st with groups := st.groups ++ [(gid, g)],
                    activeGroupId := some gid, activeIsPublic := false }
        .ok (st',
          { groupId := gid, shareUrl := getShareUrl st',
            announcement := some
              { text := st.myName ++ " created the group", fromName := st.myName,
                system := true } })

/-- One entry of the `PUBLIC_ROOMS` table from chat.js. -/
structure RoomSpec where
  name : String
  passphrase : String
  emoji : String
  desc : String
deriving DecidableEq

/-- The `PUBLIC_ROOMS` table from chat.js. -/
def PUBLIC_ROOMS : List (String × RoomSpec) :=
  [("leisure", ⟨"Leisure Skating", "toronto-leisure-skate-public-2025", "⛸️", "Casual skating & fun"⟩),
   ("shinny", ⟨"Shinny Hockey", "toronto-shinny-hockey-public-2025", "🏒", "Drop-in hockey games"⟩),
   ("figure", ⟨"Figure Skating", "toronto-figure-skate-public-2025", "⛸️", "Spins, jumps & grace"⟩),
   ("general", ⟨"General Chat", "toronto-skating-general-public-2025", "💬", "Help, tips & chill"⟩)]

/-- `joinPublicRoom` from chat.js: resolve the well-known room, derive (and
cache) its SHA-256 secret, and join with no capacity check and no join
announcement. -/
def joinPublicRoom (sha : String → String) (st : ChatState) (roomKey : String) :
    Except String (ChatState × JoinResult) :=
  match lookupA PUBLIC_ROOMS roomKey with
  | none => .error "Unknown room"
  | some room =>
    let secret :=
      match lookupA st.publicRoomSecrets roomKey with
      | some s => s
      | none => sha room.passphrase
    let st := { st with publicRoomSecrets := upsertA st.publicRoomSecrets roomKey secret }
    let gid := Crypto.deriveGroupId secret
    match lookupA st.publicRooms gid with
    | some _ =>
      .ok ({ st with activeGroupId := some gid, activeIsPublic := true },
        { groupId := gid, alreadyJoined := true, announcement := none })
    | none =>
      let g : Group :=
        { id := gid, name := room.name, secret := secret, emoji := room.emoji,
          isPublic := true, roomKey := roomKey, members := [st.myName],
          memberPubkeys := [(st.myName, st.myPublicKey.getD "")] }
      .ok ({ st with publicRooms := st.publicRooms ++ [(gid, g)],
                     activeGroupId := some gid, activeIsPublic := true },
        { groupId := gid, alreadyJoined := false, announcement := none })

/-- `sendMessage` from chat.js, reduced to the payload handed to
`publishEvent`: `none` when the send is rejected before any network
effect (no active group, blank text, or a profanity hit). -/
def sendMessage (plist : Option (List String)) (st : ChatState) (text : String) :
    Option Content :=
  match st.activeGroupId with
  | none => none
  | some _ =>
    if text.trim = "" then none
    else if Filter.check plist text then none
    else some { text := Crypto.jsSlice text.trim MAX_MESSAGE_LENGTH, fromName := st.myName }

/-! ## Observers and scenario inputs used by the theorems -/

/-- The vote tally of one program index in one group (empty when the
group or the index is absent). -/
def tallyAt (st : ChatState) (gid : String) (k : Nat) : List String :=
  match getGroupOrRoom st gid with
  | some g => lookupD g.votes k []
  | none => []

/-- The dedupe window of the group an event handler would consult. -/
def optPids (st : ChatState) (gid : String) (isPublic : Bool) : Option (List String) :=
  (grpByFlag st gid isPublic).map fun g => g.processedIds

/-- The stored message list of a group. -/
def optMsgs (st : ChatState) (gid : String) : Option (List Msg) :=
  (getGroupOrRoom st gid).map fun g => g.messages

/-- A message whose claimed timestamp is `i`, with a distinct id per `i`
(ids are distinct runs of the letter a, so that no two of the scenario
messages collide in the dedupe-by-id check). -/
def mkMsg (i : Nat) : Msg := { id := ⟨List.replicate i 'a'⟩, ts := i }

/-- `n` scenario messages with consecutive ascending timestamps
`a, a+1, ..., a+n-1`. -/
def ascMsgs (a n : Nat) : List Msg := (List.range' a n).map mkMsg

/-- A canonical already-normalized 64-char hex secret for scenarios. -/
def zero64 : String :=
  "0000000000000000000000000000000000000000000000000000000000000000"

/-- Scenario registry holding one private group, keyed by the id that
`joinGroup` would derive from `zero64` (with the hash modelled as the
identity). -/
def joinedOneState : ChatState :=
  { groups := [(Crypto.deriveGroupId (normalizeSecret (fun s => s) zero64 none), {})] }

/-- Scenario registry holding exactly `MAX_GROUPS` private groups, the
first of which is the group `joinGroup` on `zero64` would re-join. -/
def joinedTenState : ChatState :=
  { groups := (Crypto.deriveGroupId (normalizeSecret (fun s => s) zero64 none), ({} : Group)) ::
      [("g1", {}), ("g2", {}), ("g3", {}), ("g4", {}), ("g5", {}),
       ("g6", {}), ("g7", {}), ("g8", {}), ("g9", {})] }

/-- Scenario state for the vote-toggle claim: one active group and a
local display name. -/
def voteState : ChatState :=
  { myName := "SwiftFox41", activeGroupId := some "g1", groups := [("g1", {})] }

/-! ## Supporting lemmas: association lists -/

theorem lookupA_cons {α β : Type} [DecidableEq α] (p : α × β) (t : List (α × β)) (k : α) :
    lookupA (p :: t) k = if p.1 = k then some p.2 else lookupA t k := rfl

theorem setA_cons {α β : Type} [DecidableEq α] (p : α × β) (t : List (α × β)) (k : α) (v : β) :
    setA (p :: t) k v = (if p.1 = k then (k, v) else p) :: setA t k v := rfl

theorem lookupA_setA_self {α β : Type} [DecidableEq α] {l : List (α × β)} {k : α} (v : β)
    (h : (lookupA l k).isSome) : lookupA (setA l k v) k = some v := by
  induction l with
  | nil => simp [lookupA] at h
  | cons p t ih =>
    rw [setA_cons]
    by_cases hk : p.1 = k
    · rw [if_pos hk, lookupA_cons, if_pos rfl]
    · rw [if_neg hk, lookupA_cons, if_neg hk]
      rw [lookupA_cons, if_neg hk] at h
      exact ih h

theorem lookupA_setA_ne {α β : Type} [DecidableEq α] {l : List (α × β)} {k k' : α} (v : β)
    (h : k' ≠ k) : lookupA (setA l k v) k' = lookupA l k' := by
  induction l with
  | nil => rfl
  | cons p t ih =>
    rw [setA_cons, lookupA_cons, lookupA_cons]
    by_cases hk : p.1 = k
    · rw [if_pos hk, if_neg (fun hkk : k = k' => h hkk.symm), if_neg (hk ▸ fun hkk => h hkk.symm)]
      exact ih
    · rw [if_neg hk]
      by_cases hk' : p.1 = k'
      · rw [if_pos hk', if_pos hk']
      · rw [if_neg hk', if_neg hk']
        exact ih

theorem lookupA_setA_isSome {α β : Type} [DecidableEq α] {l : List (α × β)} {k : α} (v : β) :
    (lookupA (setA l k v) k).isSome = (lookupA l k).isSome := by
  induction l with
  | nil => rfl
  | cons p t ih =>
    rw [setA_cons, lookupA_cons, lookupA_cons]
    by_cases hk : p.1 = k
    · rw [if_pos hk, if_pos rfl, if_pos hk]; rfl
    · rw [if_neg hk, if_neg hk, if_neg hk]
      exact ih

theorem lookupA_append_of_none {α β : Type} [DecidableEq α] {l : List (α × β)}
    (l₂ : List (α × β)) {k : α} (h : lookupA l k = none) :
    lookupA (l ++ l₂) k = lookupA l₂ k := by
  induction l with
  | nil => rfl
  | cons p t ih =>
    by_cases hk : p.1 = k
    · simp [lookupA, hk] at h
    · simp only [lookupA, if_neg hk] at h
      simpa [lookupA, hk] using ih h

theorem lookupA_upsertA_self {α β : Type} [DecidableEq α] (l : List (α × β)) (k : α) (v : β) :
    lookupA (upsertA l k v) k = some v := by
  unfold upsertA
  by_cases h : (lookupA l k).isSome
  · rw [if_pos h]; exact lookupA_setA_self v h
  · rw [if_neg h]
    rw [lookupA_append_of_none _ (Option.not_isSome_iff_eq_none.mp h)]
    simp [lookupA]

theorem lookupD_upsertA_self {α β : Type} [DecidableEq α] (l : List (α × β)) (k : α)
    (v d : β) : lookupD (upsertA l k v) k d = v := by
  simp [lookupD, lookupA_upsertA_self]

/-! ## Supporting lemmas: sorting by timestamp -/

theorem sorted_append_max {l : List Msg} {m : Msg} (hs : List.Sorted tsLe l)
    (hmax : ∀ x ∈ l, x.ts ≤ m.ts) : List.Sorted tsLe (l ++ [m]) := by
  induction l with
  | nil => simp
  | cons a t ih =>
    rw [List.cons_append, List.sorted_cons]
    refine ⟨fun b hb => ?_, ih hs.of_cons fun x hx => hmax x (List.mem_cons_of_mem a hx)⟩
    rcases List.mem_append.mp hb with hb | hb
    · exact (List.sorted_cons.mp hs).1 b hb
    · rw [List.mem_singleton.mp hb]; exact hmax a (List.mem_cons_self a t)

theorem sortByTs_sorted_eq {l : List Msg} (hs : List.Sorted tsLe l) : sortByTs l = l :=
  hs.insertionSort_eq

theorem sortByTs_append_max {l : List Msg} {m : Msg} (hs : List.Sorted tsLe l)
    (hmax : ∀ x ∈ l, x.ts ≤ m.ts) : sortByTs (l ++ [m]) = l ++ [m] :=
  (sorted_append_max hs hmax).insertionSort_eq

theorem orderedInsert_le_all {a : Msg} {t : List Msg} (h : ∀ x ∈ t, a.ts ≤ x.ts) :
    List.orderedInsert tsLe a t = a :: t := by
  cases t with
  | nil => rfl
  | cons b bs => exact List.orderedInsert_of_le tsLe bs (h b (List.mem_cons_self b bs))

theorem sortByTs_append_min {l : List Msg} {m : Msg} (hs : List.Sorted tsLe l)
    (hmin : ∀ x ∈ l, m.ts < x.ts) : sortByTs (l ++ [m]) = m :: l := by
  induction l with
  | nil => rfl
  | cons a t ih =>
    have hat : ∀ x ∈ t, a.ts ≤ x.ts := (List.sorted_cons.mp hs).1
    have step1 : sortByTs ((a :: t) ++ [m]) = List.orderedInsert tsLe a (sortByTs (t ++ [m])) := rfl
    rw [step1, ih hs.of_cons fun x hx => hmin x (List.mem_cons_of_mem a hx)]
    have hnot : ¬ tsLe a m := not_le.mpr (hmin a (List.mem_cons_self a t))
    show List.orderedInsert tsLe a (m :: t) = m :: a :: t
    simp only [List.orderedInsert, if_neg hnot]
    rw [orderedInsert_le_all hat]

/-! ## Supporting lemmas: hex codec injectivity -/

/-- C10: when no profanity word list is configured
(`window.PROFANITY_LIST` undefined, modelled by `none`), `Filter.check`
returns false on every text and `Filter.clean` returns every text
unchanged — the filter fails open: nothing outbound is blocked and
nothing received is masked. -/
theorem c10_filter_fails_open (text : String) :
    Filter.check none text = false ∧ Filter.clean none text = text := by
  constructor
  · unfold Filter.check
    split <;> rfl
  · rfl

/-! ## Claim C1 -/

/-- C6: inserting accepted events with claimed timestamps [30, 10, 20]
into an empty group yields the stored order [10, 20, 30]; and in general
one `addMessage` insertion keeps a group's message list sorted ascending
by claimed timestamp (so after every insertion the list is sorted, not in
receipt order). -/
theorem c6_timestamp_ordering (msgs : List Msg) (m : Msg)
    (hs : List.Sorted tsLe msgs) :
    List.foldl insertMsg []
        [{ id := "a", ts := 30 }, { id := "b", ts := 10 }, { id := "c", ts := 20 }] =
      [{ id := "b", ts := 10 }, { id := "c", ts := 20 }, { id := "a", ts := 30 }] ∧
    List.Sorted tsLe (insertMsg msgs m) := by
  constructor
  · decide
  · unfold insertMsg
    split
    · exact hs
    · exact List.sorted_insertionSort tsLe _

/-- C6 witness: the ordering theorem applied to the empty message list. -/
theorem c6_timestamp_ordering_witness :
    List.foldl insertMsg []
        [{ id := "a", ts := 30 }, { id := "b", ts := 10 }, { id := "c", ts := 20 }] =
      [{ id := "b", ts := 10 }, { id := "c", ts := 20 }, { id := "a", ts := 30 }] ∧
    List.Sorted tsLe (insertMsg [] { id := "z", ts := 5 }) :=
  c6_timestamp_ordering [] { id := "z", ts := 5 } List.sorted_nil

/-! ## Claim C7 -/

/-- C7: with exactly `MAX_GROUPS` private groups stored, a further
`createGroup` call fails with the capacity error (the guard precedes any
mutation, so no group is created), while `joinPublicRoom` for any known
room key succeeds at the same private-group count — public rooms are
exempt from the cap. -/
theorem c7_capacity_boundary (plist : Option (List String)) (sha : String → String)
    (rnd : String) (st : ChatState) (nameOpt password : Option String)
    (roomKey : String) (room : RoomSpec)
    (hcap : st.groups.length = MAX_GROUPS)
    (hroom : lookupA PUBLIC_ROOMS roomKey = some room) :
    createGroup plist sha rnd st nameOpt password = .error "Max 10 private groups" ∧
    ∃ st' res, joinPublicRoom sha st roomKey = .ok (st', res) := by
  constructor
  · unfold createGroup
    rw [if_pos (le_of_eq hcap.symm)]
  · unfold joinPublicRoom
    rw [hroom]
    dsimp only
    split
    · exact ⟨_, _, rfl⟩
    · exact ⟨_, _, rfl⟩

/-- C7 witness: a registry holding exactly ten private groups rejects an
eleventh create but accepts a public-room join. -/
theorem c7_capacity_boundary_witness :
    createGroup none (fun s => s) "r"
        { groups := [("g0", {}), ("g1", {}), ("g2", {}), ("g3", {}), ("g4", {}),
                     ("g5", {}), ("g6", {}), ("g7", {}), ("g8", {}), ("g9", {})] }
        none none = .error "Max 10 private groups" ∧
    ∃ st' res, joinPublicRoom (fun s => s)
        { groups := [("g0", {}), ("g1", {}), ("g2", {}), ("g3", {}), ("g4", {}),
                     ("g5", {}), ("g6", {}), ("g7", {}), ("g8", {}), ("g9", {})] }
        "leisure" = .ok (st', res) :=
  c7_capacity_boundary none (fun s => s) "r" _ none none "leisure"
    ⟨"Leisure Skating", "toronto-leisure-skate-public-2025", "⛸️", "Casual skating & fun"⟩
    (by decide) (by decide)

/-! ## Supporting lemmas: reading back a written group -/

theorem setGroupOrRoom_activeGroupId (st : ChatState) (gid : String) (g : Group) :
    (setGroupOrRoom st gid g).activeGroupId = st.activeGroupId := by
  unfold setGroupOrRoom
  split_ifs <;> rfl

theorem setGroupOrRoom_myName (st : ChatState) (gid : String) (g : Group) :
    (setGroupOrRoom st gid g).myName = st.myName := by
  unfold setGroupOrRoom
  split_ifs <;> rfl

theorem getGroupOrRoom_set_self {st : ChatState} {gid : String} {g : Group} (g' : Group)
    (h : getGroupOrRoom st gid = some g) :
    getGroupOrRoom (setGroupOrRoom st gid g') gid = some g' := by
  unfold getGroupOrRoom at h
  unfold getGroupOrRoom setGroupOrRoom
  by_cases hsg : (lookupA st.groups gid).isSome = true
  · rw [if_pos hsg]
    dsimp only
    simp only [lookupA_setA_self g' hsg]
  · rw [if_neg hsg]
    have hgn : lookupA st.groups gid = none := Option.not_isSome_iff_eq_none.mp (by simpa using hsg)
    rw [hgn] at h
    dsimp only at h
    have hs2 : (lookupA st.publicRooms gid).isSome = true := by rw [h]; rfl
    rw [if_pos hs2]
    dsimp only
    simp only [hgn, lookupA_setA_self g' hs2]

/-! ## Claim C2 -/

/-- C2 (amended): a `joinGroup` call whose normalized secret derives a
groupId already present in the registry succeeds with
`alreadyJoined = true`, makes that group active, and schedules no join
announcement — provided the stored private-group count is below
`MAX_GROUPS`.  The counterexample theorem shows the "regardless of count,
including exactly MAX_GROUPS" part of the claim fails: the capacity guard
runs before the already-joined check, so a re-join at exactly
`MAX_GROUPS` throws the capacity error instead. -/
theorem c2_rejoin_amended (sha : String → String) (st : ChatState) (secret : String)
    (password customName : Option String) (g : Group)
    (hcap : st.groups.length < MAX_GROUPS)
    (hfound : lookupA st.groups
        (Crypto.deriveGroupId (normalizeSecret sha secret password)) = some g) :
    joinGroup sha st secret password customName =
      .ok ({ st with
              activeGroupId := some (Crypto.deriveGroupId (normalizeSecret sha secret password)),
              activeIsPublic := false },
        { groupId := Crypto.deriveGroupId (normalizeSecret sha secret password),
          alreadyJoined := true, announcement := none }) := by
  unfold joinGroup
  rw [if_neg (by omega)]
  dsimp only
  rw [hfound]

/-- C2 witness: re-joining the single stored group by its secret. -/
theorem c2_rejoin_amended_witness :
    joinGroup (fun s => s) joinedOneState zero64 none none =
      .ok ({ joinedOneState with
              activeGroupId :=
                some (Crypto.deriveGroupId (normalizeSecret (fun s => s) zero64 none)),
              activeIsPublic := false },
        { groupId := Crypto.deriveGroupId (normalizeSecret (fun s => s) zero64 none),
          alreadyJoined := true, announcement := none }) :=
  c2_rejoin_amended (fun s => s) joinedOneState zero64 none none {}
    (by decide)
    (by simp [joinedOneState, lookupA])

/-- C2 counterexample: at exactly `MAX_GROUPS` stored private groups, a
`joinGroup` whose normalized secret derives an already-present groupId
does not return `alreadyJoined` — it throws the capacity error, refuting
the claim's "regardless of how many private groups are currently stored
(including exactly MAX_GROUPS)". -/
theorem c2_rejoin_counterexample :
    joinedTenState.groups.length = MAX_GROUPS ∧
    (lookupA joinedTenState.groups
        (Crypto.deriveGroupId (normalizeSecret (fun s => s) zero64 none))).isSome = true ∧
    joinGroup (fun s => s) joinedTenState zero64 none none =
      .error "Max 10 private groups" := by
  refine ⟨by decide, ?_, ?_⟩
  · simp [joinedTenState, lookupA]
  · unfold joinGroup
    rw [if_pos (by decide)]

/-! ## Claim C9 -/

theorem voteTime_st_eq {st : ChatState} {gid : String} {g : Group} (k : Nat)
    (hactive : st.activeGroupId = some gid) (hg : getGroupOrRoom st gid = some g)
    (hnot : (lookupD g.votes k []).contains st.myName = false) :
    (voteTime st k).st =
      setGroupOrRoom st gid
        { g with votes := upsertA g.votes k (lookupD g.votes k [] ++ [st.myName]) } := by
  unfold voteTime
  rw [hactive]
  dsimp only
  rw [hg]
  simp only [hnot, Bool.not_false, if_true]

theorem voteTime_pub_eq {st : ChatState} {gid : String} {g : Group} (k : Nat)
    (hactive : st.activeGroupId = some gid) (hg : getGroupOrRoom st gid = some g)
    (hnot : (lookupD g.votes k []).contains st.myName = false) :
    (voteTime st k).published =
      some { programIndex := k, fromName := st.myName, voted := true } := by
  unfold voteTime
  rw [hactive]
  dsimp only
  rw [hg]
  simp only [hnot, Bool.not_false]

theorem voteTime_st_eq_voted {st : ChatState} {gid : String} {g : Group} (k : Nat)
    (hactive : st.activeGroupId = some gid) (hg : getGroupOrRoom st gid = some g)
    (hvot : (lookupD g.votes k []).contains st.myName = true) :
    (voteTime st k).st =
      setGroupOrRoom st gid
        { g with votes := upsertA g.votes k ((lookupD g.votes k []).erase st.myName) } := by
  unfold voteTime
  rw [hactive]
  dsimp only
  rw [hg]
  simp only [hvot, Bool.not_true, Bool.false_eq_true, if_false]

theorem voteTime_pub_eq_voted {st : ChatState} {gid : String} {g : Group} (k : Nat)
    (hactive : st.activeGroupId = some gid) (hg : getGroupOrRoom st gid = some g)
    (hvot : (lookupD g.votes k []).contains st.myName = true) :
    (voteTime st k).published =
      some { programIndex := k, fromName := st.myName, voted := false } := by
  unfold voteTime
  rw [hactive]
  dsimp only
  rw [hg]
  simp only [hvot, Bool.not_true]

/-- C9: with the caller not in the tally for option `k`, two successive
`voteTime k` calls first append and then remove the caller's name,
restoring the original tally; each call's optimistic flip happens before
the publish, and the published VOTE payload carries the post-flip
membership (`voted = true` then `voted = false`). -/
theorem c9_vote_toggle (st : ChatState) (gid : String) (g : Group) (k : Nat)
    (hactive : st.activeGroupId = some gid)
    (hg : getGroupOrRoom st gid = some g)
    (hnot : (lookupD g.votes k []).contains st.myName = false) :
    tallyAt (voteTime st k).st gid k = lookupD g.votes k [] ++ [st.myName] ∧
    tallyAt (voteTime (voteTime st k).st k).st gid k = lookupD g.votes k [] ∧
    (voteTime st k).published =
      some { programIndex := k, fromName := st.myName, voted := true } ∧
    (voteTime (voteTime st k).st k).published =
      some { programIndex := k, fromName := st.myName, voted := false } := by
  have hst1 := voteTime_st_eq k hactive hg hnot
  have hg1 : getGroupOrRoom (voteTime st k).st gid =
      some { g with votes := upsertA g.votes k (lookupD g.votes k [] ++ [st.myName]) } := by
    rw [hst1]; exact getGroupOrRoom_set_self _ hg
  have hactive1 : (voteTime st k).st.activeGroupId = some gid := by
    rw [hst1, setGroupOrRoom_activeGroupId]; exact hactive
  have hname1 : (voteTime st k).st.myName = st.myName := by
    rw [hst1, setGroupOrRoom_myName]
  have htally1 :
      lookupD (upsertA g.votes k (lookupD g.votes k [] ++ [st.myName])) k [] =
        lookupD g.votes k [] ++ [st.myName] := lookupD_upsertA_self _ _ _ _
  have hmem : st.myName ∉ lookupD g.votes k [] := by simpa using hnot
  have hvot1 : (lookupD ({ g with
      votes := upsertA g.votes k (lookupD g.votes k [] ++ [st.myName]) } : Group).votes k []).contains
        (voteTime st k).st.myName = true := by
    rw [hname1]
    show (lookupD (upsertA g.votes k (lookupD g.votes k [] ++ [st.myName])) k []).contains
        st.myName = true
    rw [htally1]
    simp
  refine ⟨?_, ?_, voteTime_pub_eq k hactive hg hnot, ?_⟩
  · unfold tallyAt
    rw [hg1]
    exact htally1
  · have hst2 := voteTime_st_eq_voted k hactive1 hg1 hvot1
    unfold tallyAt
    rw [hst2]
    rw [getGroupOrRoom_set_self _ hg1]
    show lookupD (upsertA _ k _) k [] = _
    rw [lookupD_upsertA_self]
    show (lookupD (upsertA g.votes k (lookupD g.votes k [] ++ [st.myName])) k []).erase
        (voteTime st k).st.myName = _
    rw [htally1, hname1]
    rw [List.erase_append_right _ hmem, List.erase_cons_head, List.append_nil]
  · have := voteTime_pub_eq_voted k hactive1 hg1 hvot1
    rw [this, hname1]

/-- C9 witness: "SwiftFox41" toggling option 2 in a fresh group. -/
theorem c9_vote_toggle_witness :
    tallyAt (voteTime voteState 2).st "g1" 2 =
        lookupD ({} : Group).votes 2 [] ++ [voteState.myName] ∧
    tallyAt (voteTime (voteTime voteState 2).st 2).st "g1" 2 = lookupD ({} : Group).votes 2 [] ∧
    (voteTime voteState 2).published =
      some { programIndex := 2, fromName := voteState.myName, voted := true } ∧
    (voteTime (voteTime voteState 2).st 2).published =
      some { programIndex := 2, fromName := voteState.myName, voted := false } :=
  c9_vote_toggle voteState "g1" {} 2 rfl (by simp [voteState, getGroupOrRoom, lookupA]) (by decide)

/-! ## Claim C8 -/

/-- C8: a direct-message event is appended only if it carries a recipient
`p` tag and the local identity is the tagged recipient or the sender: an
event with no `p` tag, and an event whose recipient and sender are both
someone else, are dropped by `handleDmEvent` with no state mutation. -/
theorem c8_dm_routing (plist : Option (List String)) (st : ChatState) (gid : String)
    (event : Event) (content : Content) :
    (event.tags.find? (fun t => t.head? == some "p") = none →
      handleDmEvent plist st gid event content = st) ∧
    (∀ toTag, event.tags.find? (fun t => t.head? == some "p") = some toTag →
      isRecipient st toTag[1]? = false → isMine st event.pubkey = false →
      handleDmEvent plist st gid event content = st) := by
  constructor
  · intro h
    unfold handleDmEvent
    rw [h]
  · intro toTag h hrec hmine
    unfold handleDmEvent
    rw [h]
    dsimp only
    rw [hrec, hmine]
    rfl

/-- C8 witness: an event tagged for the public key xkey, sent by the
public key other, reaching a client whose key is me: dropped without any
state change. -/
theorem c8_dm_routing_witness :
    handleDmEvent none { myPublicKey := some "me" } "g1"
        { id := "e", pubkey := "other", kind := 20101, created_at := 0,
          tags := [["p", "xkey"]], content := ⟨("k", "k"), {}⟩ }
        {} =
      { myPublicKey := some "me" } :=
  (c8_dm_routing none { myPublicKey := some "me" } "g1"
      { id := "e", pubkey := "other", kind := 20101, created_at := 0,
        tags := [["p", "xkey"]], content := ⟨("k", "k"), {}⟩ }
      {}).2
    ["p", "xkey"] (by decide) (by decide) (by decide)

/-! ## Claim C4 -/

theorem setGrpFlag_myPublicKey (st : ChatState) (gid : String) (isPublic : Bool) (g : Group) :
    (setGrpFlag st gid isPublic g).myPublicKey = st.myPublicKey := by
  unfold setGrpFlag
  split <;> rfl

theorem isMine_setGrpFlag (st : ChatState) (gid : String) (isPublic : Bool) (g : Group)
    (pk : String) : isMine (setGrpFlag st gid isPublic g) pk = isMine st pk := by
  unfold isMine
  rw [setGrpFlag_myPublicKey]

theorem getGroupOrRoom_setGrpFlag_false {st : ChatState} {gid : String} (g' : Group)
    (h : (lookupA st.groups gid).isSome = true) :
    getGroupOrRoom (setGrpFlag st gid false g') gid = some g' := by
  unfold getGroupOrRoom setGrpFlag
  simp only [Bool.false_eq_true, if_false]
  simp only [lookupA_setA_self g' h]

theorem trackMember_messages {st : ChatState} {gid : String} {g : Group}
    (h : getGroupOrRoom st gid = some g) (name pk : String) :
    ∃ g', getGroupOrRoom (trackMember st gid name pk) gid = some g' ∧
      g'.messages = g.messages := by
  unfold trackMember
  rw [h]
  dsimp only
  refine ⟨_, getGroupOrRoom_set_self _ h, ?_⟩
  split <;> rfl

theorem mem_insertMsg_self {msgs : List Msg} {m : Msg}
    (hfresh : msgs.any (fun x => x.id == m.id) = false) : m ∈ insertMsg msgs m := by
  unfold insertMsg
  simp only [hfresh, Bool.false_eq_true, if_false]
  have hm : m ∈ msgs ++ [m] := List.mem_append_right _ (List.mem_singleton.mpr rfl)
  have hmt : m ∈
      (if (msgs ++ [m]).length > MAX_MESSAGES then
        (msgs ++ [m]).drop ((msgs ++ [m]).length - MAX_MESSAGES)
      else msgs ++ [m]) := by
    split
    · have hk : (msgs ++ [m]).length - MAX_MESSAGES ≤ msgs.length := by
        rw [List.length_append, List.length_singleton]
        unfold MAX_MESSAGES
        omega
      rw [List.drop_append_of_le_length hk]
      exact List.mem_append_right _ (List.mem_singleton.mpr rfl)
    · exact hm
  exact ((List.perm_insertionSort tsLe _).mem_iff).mpr hmt

/-- C4 (amended): for every accepted inbound group chat event, the stored
message record holds `Filter.clean` of the decrypted text — masking of
received chat text happens at storage time inside the event handler, not
at render time.  (When no profanity list is configured the two coincide
and storage keeps the decrypted text.)  The counterexample theorem
refutes the claim as stated: with a configured list, the stored history
is altered. -/
theorem c4_masking_at_storage_amended (plist : Option (List String)) (st : ChatState)
    (gid : String) (event : Event) (g : Group) (content : Content)
    (hg : lookupA st.groups gid = some g)
    (hpid : g.processedIds.contains event.id = false)
    (hsig : event.sigOk = true)
    (hdec : Crypto.decryptForGroup event.content g.secret = some content)
    (hkind : event.kind = EVENT_KINDS.GROUP_MSG)
    (hfresh : g.messages.any (fun x => x.id == event.id) = false) :
    ∃ g', getGroupOrRoom (handleEvent plist gid event false st) gid = some g' ∧
      ({ id := event.id, type := "chat", text := Filter.clean plist content.text,
         fromName := content.fromName, fromPubkey := event.pubkey,
         mine := isMine st event.pubkey, system := content.system,
         ts := event.created_at * 1000 } : Msg) ∈ g'.messages := by
  have hsome : (lookupA st.groups gid).isSome = true := by rw [hg]; rfl
  have hflag : grpByFlag st gid false = some g := by
    unfold grpByFlag
    simp only [Bool.false_eq_true, if_false]
    exact hg
  unfold handleEvent
  rw [hflag]
  dsimp only
  simp only [hpid, Bool.false_eq_true, if_false]
  simp only [hsig, Bool.not_true, Bool.false_eq_true, if_false]
  rw [hdec]
  dsimp only
  rw [hkind, if_pos rfl]
  -- the state after recording the event id
  rw [isMine_setGrpFlag]
  set gmid : Group := { g with processedIds :=
      if (g.processedIds ++ [event.id]).length > 500 then
        (g.processedIds ++ [event.id]).drop ((g.processedIds ++ [event.id]).length - 250)
      else g.processedIds ++ [event.id] } with hgmid
  set stmid : ChatState := setGrpFlag st gid false gmid with hstmid
  have hget : getGroupOrRoom stmid gid = some gmid :=
    getGroupOrRoom_setGrpFlag_false gmid hsome
  set msg : Msg :=
    ⟨event.id, "chat", Filter.clean plist content.text, content.fromName,
      event.pubkey, isMine st event.pubkey, content.system,
      event.created_at * 1000, none⟩ with hmsg
  have haddm : addMessage stmid gid msg =
      setGroupOrRoom stmid gid
        { gmid with
          messages := insertMsg gmid.messages msg
          unread := if !msg.mine && !msg.system && stmid.activeGroupId != some gid then
              gmid.unread + 1 else gmid.unread } := by
    unfold addMessage
    rw [hget]
    dsimp only
    have hfr : gmid.messages.any (fun x => x.id == msg.id) = false := hfresh
    simp only [hfr, Bool.false_eq_true, if_false]
  have hget2 : getGroupOrRoom (addMessage stmid gid msg) gid =
      some { gmid with
        messages := insertMsg gmid.messages msg
        unread := if !msg.mine && !msg.system && stmid.activeGroupId != some gid then
            gmid.unread + 1 else gmid.unread } := by
    rw [haddm]
    exact getGroupOrRoom_set_self _ hget
  obtain ⟨gfin, hgfin, hmsgs⟩ := trackMember_messages hget2 content.fromName event.pubkey
  refine ⟨gfin, hgfin, ?_⟩
  rw [hmsgs]
  exact mem_insertMsg_self hfresh

/-- C4 witness: an accepted plaintext chat event is stored with
`Filter.clean` applied (here, no list configured, so text unchanged). -/
theorem c4_masking_at_storage_amended_witness :
    ∃ g', getGroupOrRoom
        (handleEvent none "g1"
          { id := "e1", pubkey := "pk", kind := 20100, created_at := 7, tags := [],
            content := ⟨("00", "00"), { text := "hello", fromName := "Bob" }⟩ }
          false { groups := [("g1", { secret := "00" })] }) "g1" = some g' ∧
      ({ id := "e1", type := "chat", text := Filter.clean none "hello",
         fromName := "Bob", fromPubkey := "pk", mine := false, system := false,
         ts := 7000 } : Msg) ∈ g'.messages :=
  c4_masking_at_storage_amended none { groups := [("g1", { secret := "00" })] } "g1"
    { id := "e1", pubkey := "pk", kind := 20100, created_at := 7, tags := [],
      content := ⟨("00", "00"), { text := "hello", fromName := "Bob" }⟩ }
    { secret := "00" } { text := "hello", fromName := "Bob" }
    (by simp [lookupA]) (by decide) (by decide) (by decide) (by decide) (by decide)

/-- C4 counterexample: with the profanity list configured, an accepted
inbound chat event whose decrypted text is a listed word is stored
masked — the stored history does not keep the decrypted text, refuting
"masking is applied only at display (render) time". -/
theorem c4_storage_masked_counterexample :
    optMsgs
        (handleEvent (some ["darn"]) "g1"
          { id := "e1", pubkey := "pk", kind := 20100, created_at := 7, tags := [],
            content := ⟨("00", "00"), { text := "darn", fromName := "Bob" }⟩ }
          false { groups := [("g1", { secret := "00" })] }) "g1" =
      some [{ id := "e1", type := "chat", text := "****", fromName := "Bob",
              fromPubkey := "pk", mine := false, system := false, ts := 7000 }] ∧
    ("****" : String) ≠ "darn" := by
  constructor
  · decide
  · decide

/-! ## Supporting lemmas: the dedupe window survives every dispatch branch -/

theorem grpByFlag_setGrpFlag_self {st : ChatState} {gid : String} {isPublic : Bool}
    {g0 : Group} (h : grpByFlag st gid isPublic = some g0) (g' : Group) :
    grpByFlag (setGrpFlag st gid isPublic g') gid isPublic = some g' := by
  unfold grpByFlag at h
  unfold grpByFlag setGrpFlag
  cases isPublic with
  | false =>
    simp only [Bool.false_eq_true, if_false] at h ⊢
    exact lookupA_setA_self g' (by rw [h]; rfl)
  | true =>
    simp only [if_true] at h ⊢
    exact lookupA_setA_self g' (by rw [h]; rfl)

theorem optPids_setGrpFlag_self {st : ChatState} {gid : String} {isPublic : Bool}
    {g0 : Group} (h : grpByFlag st gid isPublic = some g0) (g' : Group) :
    optPids (setGrpFlag st gid isPublic g') gid isPublic = some g'.processedIds := by
  unfold optPids
  rw [grpByFlag_setGrpFlag_self h g']
  rfl

theorem optPids_setGroupOrRoom {st : ChatState} {gid' : String} {g0 g' : Group}
    (h : getGroupOrRoom st gid' = some g0) (hp : g'.processedIds = g0.processedIds)
    (gid : String) (isPublic : Bool) :
    optPids (setGroupOrRoom st gid' g') gid isPublic = optPids st gid isPublic := by
  unfold getGroupOrRoom at h
  unfold optPids grpByFlag setGroupOrRoom
  by_cases hsg : (lookupA st.groups gid').isSome = true
  · rw [if_pos hsg]
    obtain ⟨gg, hgg⟩ := Option.isSome_iff_exists.mp hsg
    rw [hgg] at h
    have hgg0 : gg = g0 := Option.some.inj h
    cases isPublic with
    | false =>
      simp only [Bool.false_eq_true, if_false]
      by_cases hgid : gid = gid'
      · subst hgid
        rw [lookupA_setA_self g' hsg, hgg]
        simp only [Option.map_some']
        rw [hp, hgg0]
      · rw [lookupA_setA_ne g' hgid]
    | true => simp only [if_true]
  · rw [if_neg hsg]
    have hgn : lookupA st.groups gid' = none :=
      Option.not_isSome_iff_eq_none.mp (by simpa using hsg)
    rw [hgn] at h
    by_cases hsp : (lookupA st.publicRooms gid').isSome = true
    · rw [if_pos hsp]
      obtain ⟨gg, hgg⟩ := Option.isSome_iff_exists.mp hsp
      have hgg0 : gg = g0 := by rw [hgg] at h; exact Option.some.inj h
      cases isPublic with
      | false => simp only [Bool.false_eq_true, if_false]
      | true =>
        simp only [if_true]
        by_cases hgid : gid = gid'
        · subst hgid
          rw [lookupA_setA_self g' hsp, hgg]
          simp only [Option.map_some']
          rw [hp, hgg0]
        · rw [lookupA_setA_ne g' hgid]
    · rw [if_neg hsp]

theorem optPids_addMessage (st : ChatState) (gid' : String) (m : Msg) (gid : String)
    (isPublic : Bool) :
    optPids (addMessage st gid' m) gid isPublic = optPids st gid isPublic := by
  unfold addMessage
  cases h : getGroupOrRoom st gid' with
  | none => rfl
  | some g0 =>
    dsimp only
    split
    · rfl
    · refine optPids_setGroupOrRoom h ?_ gid isPublic
      rfl

theorem optPids_trackMember (st : ChatState) (gid' : String) (name pk : String)
    (gid : String) (isPublic : Bool) :
    optPids (trackMember st gid' name pk) gid isPublic = optPids st gid isPublic := by
  unfold trackMember
  cases h : getGroupOrRoom st gid' with
  | none => rfl
  | some g0 =>
    dsimp only
    refine optPids_setGroupOrRoom h ?_ gid isPublic
    split <;> rfl

theorem handleDmEvent_groups (plist : Option (List String)) (st : ChatState) (gid' : String)
    (event : Event) (content : Content) :
    (handleDmEvent plist st gid' event content).groups = st.groups ∧
      (handleDmEvent plist st gid' event content).publicRooms = st.publicRooms := by
  unfold handleDmEvent
  constructor
  · split
    · rfl
    · dsimp only
      repeat' split
      all_goals rfl
  · split
    · rfl
    · dsimp only
      repeat' split
      all_goals rfl

theorem optPids_handleDmEvent (plist : Option (List String)) (st : ChatState)
    (gid' : String) (event : Event) (content : Content) (gid : String) (isPublic : Bool) :
    optPids (handleDmEvent plist st gid' event content) gid isPublic =
      optPids st gid isPublic := by
  obtain ⟨h1, h2⟩ := handleDmEvent_groups plist st gid' event content
  unfold optPids grpByFlag
  rw [h1, h2]

theorem contains_trim_self (l : List String) (a : String) :
    (if (l ++ [a]).length > 500 then
        (l ++ [a]).drop ((l ++ [a]).length - 250)
      else l ++ [a]).contains a = true := by
  split
  · have hk : (l ++ [a]).length - 250 ≤ l.length := by
      rw [List.length_append, List.length_singleton]
      omega
    rw [List.drop_append_of_le_length hk]
    simp
  · simp

theorem handleEvent_pids {plist : Option (List String)} {gid : String} {event : Event}
    {isPublic : Bool} {st : ChatState} {g : Group}
    (h : grpByFlag st gid isPublic = some g)
    (hnew : g.processedIds.contains event.id = false) :
    optPids (handleEvent plist gid event isPublic st) gid isPublic =
      some (if (g.processedIds ++ [event.id]).length > 500 then
          (g.processedIds ++ [event.id]).drop ((g.processedIds ++ [event.id]).length - 250)
        else g.processedIds ++ [event.id]) := by
  unfold handleEvent
  rw [h]
  dsimp only
  simp only [hnew, Bool.false_eq_true, if_false]
  set pids := (if (g.processedIds ++ [event.id]).length > 500 then
      (g.processedIds ++ [event.id]).drop ((g.processedIds ++ [event.id]).length - 250)
    else g.processedIds ++ [event.id]) with hpids
  set gmid : Group := { g with processedIds := pids } with hgmid
  have hmid : optPids (setGrpFlag st gid isPublic gmid) gid isPublic = some pids :=
    optPids_setGrpFlag_self h gmid
  have hflagmid : grpByFlag (setGrpFlag st gid isPublic gmid) gid isPublic = some gmid :=
    grpByFlag_setGrpFlag_self h gmid
  split
  · exact hmid
  · split
    · exact hmid
    · next content hdec =>
      split
      · rw [optPids_trackMember, optPids_addMessage]
        exact hmid
      · split
        · rw [optPids_trackMember, optPids_addMessage]
          exact hmid
        · split
          · rw [optPids_setGrpFlag_self hflagmid]
          · split
            · rw [optPids_handleDmEvent]
              exact hmid
            · split
              · cases hg2 : grpByFlag (trackMember (setGrpFlag st gid isPublic gmid) gid
                    content.fromName event.pubkey) gid isPublic with
                | none =>
                  rw [optPids_trackMember]
                  exact hmid
                | some g2 =>
                  have hopt : optPids (trackMember (setGrpFlag st gid isPublic gmid) gid
                      content.fromName event.pubkey) gid isPublic = some pids := by
                    rw [optPids_trackMember]
                    exact hmid
                  have hg2p : g2.processedIds = pids := by
                    unfold optPids at hopt
                    rw [hg2] at hopt
                    exact Option.some.inj hopt
                  rw [optPids_setGrpFlag_self hg2]
                  rw [hg2p]
              · exact hmid

/-! ## Claim C5 -/

/-- C5: delivering the same wire event twice leaves the state exactly as
after the first delivery — the second delivery is discarded by the
dedupe-by-id check (the id is recorded before any validation, so this
holds for every kind and even for invalid events); and concretely, a
twice-delivered chat event stores exactly one message. -/
theorem c5_duplicate_event_idempotent (plist : Option (List String)) (gid : String)
    (event : Event) (isPublic : Bool) (st : ChatState) :
    handleEvent plist gid event isPublic (handleEvent plist gid event isPublic st) =
      handleEvent plist gid event isPublic st ∧
    (optMsgs
        (handleEvent (some ["darn"]) "g1"
          { id := "e1", pubkey := "pk", kind := 20100, created_at := 7, tags := [],
            content := ⟨("00", "00"), { text := "hey", fromName := "Bob" }⟩ }
          false
          (handleEvent (some ["darn"]) "g1"
            { id := "e1", pubkey := "pk", kind := 20100, created_at := 7, tags := [],
              content := ⟨("00", "00"), { text := "hey", fromName := "Bob" }⟩ }
            false { groups := [("g1", { secret := "00" })] })) "g1").map List.length =
      some 1 := by
  have hidem : ∀ (p : Option (List String)) (gd : String) (e : Event) (b : Bool)
      (s : ChatState),
      handleEvent p gd e b (handleEvent p gd e b s) = handleEvent p gd e b s := by
    intro p gd e b s
    cases h : grpByFlag s gd b with
    | none =>
      have hE : handleEvent p gd e b s = s := by
        unfold handleEvent
        rw [h]
      rw [hE]
      exact hE
    | some g =>
      by_cases hdup : g.processedIds.contains e.id = true
      · have hE : handleEvent p gd e b s = s := by
          unfold handleEvent
          rw [h]
          simp only [hdup, if_true]
        rw [hE]
        exact hE
      · have hnew : g.processedIds.contains e.id = false :=
          Bool.eq_false_iff.mpr hdup
        have hp := @handleEvent_pids p gd e b s g h hnew
        unfold optPids at hp
        set st1 := handleEvent p gd e b s with hst1
        cases hg1 : grpByFlag st1 gd b with
        | none => rw [hg1] at hp; simp at hp
        | some g1 =>
          rw [hg1] at hp
          simp only [Option.map_some'] at hp
          have hg1p := Option.some.inj hp
          conv_lhs => unfold handleEvent
          rw [hg1]
          dsimp only
          rw [hg1p, contains_trim_self, if_pos rfl]
  refine ⟨hidem plist gid event isPublic st, ?_⟩
  rw [hidem]
  decide

/-! ## Supporting lemmas: the retention scenario -/

theorem mkMsg_ts (i : Nat) : (mkMsg i).ts = i := rfl

theorem mkMsg_eq_iff {i j : Nat} (h : mkMsg i = mkMsg j) : i = j := by
  have := congrArg Msg.ts h
  simpa [mkMsg] using this

theorem mkMsg_id_inj {i j : Nat} (h : (mkMsg i).id = (mkMsg j).id) : i = j := by
  have h2 := congrArg (fun s : String => s.data.length) h
  simpa [mkMsg] using h2

theorem length_ascMsgs (a n : Nat) : (ascMsgs a n).length = n := by
  simp [ascMsgs]

theorem ascMsgs_ts_lt {a n : Nat} : ∀ x ∈ ascMsgs a n, x.ts < a + n := by
  intro x hx
  obtain ⟨i, hi, rfl⟩ := List.mem_map.mp hx
  rw [mkMsg_ts]
  exact (List.mem_range'_1.mp hi).2

theorem ascMsgs_ts_ge {a n : Nat} : ∀ x ∈ ascMsgs a n, a ≤ x.ts := by
  intro x hx
  obtain ⟨i, hi, rfl⟩ := List.mem_map.mp hx
  rw [mkMsg_ts]
  exact (List.mem_range'_1.mp hi).1

theorem sorted_ascMsgs (a n : Nat) : List.Sorted tsLe (ascMsgs a n) := by
  have hpw := List.pairwise_lt_range' a n
  exact List.Pairwise.map mkMsg (fun i j hij => Nat.le_of_lt hij) hpw

theorem freshAsc {a n m : Nat} (h : m < a ∨ a + n ≤ m) :
    (ascMsgs a n).any (fun x => x.id == (mkMsg m).id) = false := by
  rw [List.any_eq_false]
  intro x hx
  obtain ⟨i, hi, rfl⟩ := List.mem_map.mp hx
  obtain ⟨h1, h2⟩ := List.mem_range'_1.mp hi
  intro hbeq
  have : i = m := mkMsg_id_inj (by simpa using hbeq)
  omega

theorem ascMsgs_concat (a n : Nat) : ascMsgs a (n + 1) = ascMsgs a n ++ [mkMsg (a + n)] := by
  unfold ascMsgs
  rw [List.range'_concat, List.map_append]
  simp

theorem ascMsgs_tail (a n : Nat) : (ascMsgs a (n + 1)).tail = ascMsgs (a + 1) n := by
  unfold ascMsgs
  rw [List.range'_succ]
  rfl

theorem insertMsg_under {l : List Msg} {m : Msg} (hs : List.Sorted tsLe l)
    (hlen : l.length < MAX_MESSAGES) (hfresh : l.any (fun x => x.id == m.id) = false)
    (hmax : ∀ x ∈ l, x.ts ≤ m.ts) : insertMsg l m = l ++ [m] := by
  unfold insertMsg
  simp only [hfresh, Bool.false_eq_true, if_false]
  have h500 : MAX_MESSAGES = 500 := rfl
  rw [if_neg (by rw [List.length_append, List.length_singleton, h500]; rw [h500] at hlen; omega)]
  exact sortByTs_append_max hs hmax

theorem insertMsg_over {l : List Msg} {m : Msg} (hs : List.Sorted tsLe l)
    (hlen : l.length = MAX_MESSAGES) (hfresh : l.any (fun x => x.id == m.id) = false)
    (hmax : ∀ x ∈ l, x.ts ≤ m.ts) : insertMsg l m = l.tail ++ [m] := by
  unfold insertMsg
  simp only [hfresh, Bool.false_eq_true, if_false]
  have h500 : MAX_MESSAGES = 500 := rfl
  rw [if_pos (by rw [List.length_append, List.length_singleton, hlen]; decide)]
  have hdrop : (l ++ [m]).length - MAX_MESSAGES = 1 := by
    rw [List.length_append, List.length_singleton, hlen]; decide
  rw [hdrop, List.drop_append_of_le_length (by rw [hlen, h500]; omega), List.drop_one]
  exact sortByTs_append_max (hs.tail) fun x hx => hmax x (List.mem_of_mem_tail hx)

theorem insertMsg_min_over {l : List Msg} {m : Msg} (hs : List.Sorted tsLe l)
    (hlen : l.length = MAX_MESSAGES) (hfresh : l.any (fun x => x.id == m.id) = false)
    (hmin : ∀ x ∈ l, m.ts < x.ts) : insertMsg l m = m :: l.tail := by
  unfold insertMsg
  simp only [hfresh, Bool.false_eq_true, if_false]
  have h500 : MAX_MESSAGES = 500 := rfl
  rw [if_pos (by rw [List.length_append, List.length_singleton, hlen]; decide)]
  have hdrop : (l ++ [m]).length - MAX_MESSAGES = 1 := by
    rw [List.length_append, List.length_singleton, hlen]; decide
  rw [hdrop, List.drop_append_of_le_length (by rw [hlen, h500]; omega), List.drop_one]
  exact sortByTs_append_min (hs.tail) fun x hx => hmin x (List.mem_of_mem_tail hx)

theorem foldl_asc_fill (a : Nat) : ∀ n, n ≤ MAX_MESSAGES →
    List.foldl insertMsg [] (ascMsgs a n) = ascMsgs a n := by
  intro n
  induction n with
  | zero => intro _; rfl
  | succ n ih =>
    intro hn
    rw [ascMsgs_concat, List.foldl_append, ih (Nat.le_of_succ_le hn)]
    simp only [List.foldl_cons, List.foldl_nil]
    rw [insertMsg_under (sorted_ascMsgs a n)
      (by rw [length_ascMsgs]; omega)
      (freshAsc (Or.inr (le_refl _)))
      (fun x hx => Nat.le_of_lt (by rw [mkMsg_ts]; exact ascMsgs_ts_lt x hx))]

theorem insertMsg_shift (a b a' : Nat) (hb : b = a + MAX_MESSAGES) (ha' : a' = a + 1) :
    insertMsg (ascMsgs a MAX_MESSAGES) (mkMsg b) = ascMsgs a' MAX_MESSAGES := by
  subst hb ha'
  rw [insertMsg_over (sorted_ascMsgs a MAX_MESSAGES) (length_ascMsgs a MAX_MESSAGES)
    (freshAsc (Or.inr (le_refl _)))
    (fun x hx => Nat.le_of_lt (by rw [mkMsg_ts]; exact ascMsgs_ts_lt x hx))]
  have h1 : MAX_MESSAGES = 499 + 1 := rfl
  rw [h1, ascMsgs_tail, ← ascMsgs_concat]

/-! ## Claim C3 -/

/-- C3 (amended): inserting `MAX_MESSAGES + 5` accepted messages leaves
exactly `MAX_MESSAGES` stored, and when the messages arrive in ascending
timestamp order the stored messages are precisely the `MAX_MESSAGES` most
recent by timestamp.  The counterexample theorem shows the "most recent
by timestamp" part fails in general: the trim runs before the re-sort, so
eviction drops the head of the pre-sort list, and a late-arriving message
older than every stored one both survives and displaces a more recent
one. -/
theorem c3_retention_amended :
    (ascMsgs 1 (MAX_MESSAGES + 5)).length = MAX_MESSAGES + 5 ∧
    List.foldl insertMsg [] (ascMsgs 1 (MAX_MESSAGES + 5)) = ascMsgs 6 MAX_MESSAGES ∧
    (ascMsgs 6 MAX_MESSAGES).length = MAX_MESSAGES := by
  refine ⟨length_ascMsgs 1 _, ?_, length_ascMsgs 6 _⟩
  have hsplit : ascMsgs 1 (MAX_MESSAGES + 5) =
      ascMsgs 1 MAX_MESSAGES ++ ascMsgs 501 5 := by
    unfold ascMsgs
    rw [← List.map_append]
    rw [show (501 : Nat) = 1 + 1 * MAX_MESSAGES from rfl, List.range'_append]
    rw [show (5 + MAX_MESSAGES : Nat) = MAX_MESSAGES + 5 from by omega]
  have hlist : ascMsgs 501 5 =
      [mkMsg 501, mkMsg 502, mkMsg 503, mkMsg 504, mkMsg 505] := rfl
  have e1 : insertMsg (ascMsgs 1 MAX_MESSAGES) (mkMsg 501) = ascMsgs 2 MAX_MESSAGES :=
    insertMsg_shift 1 501 2 rfl rfl
  have e2 : insertMsg (ascMsgs 2 MAX_MESSAGES) (mkMsg 502) = ascMsgs 3 MAX_MESSAGES :=
    insertMsg_shift 2 502 3 rfl rfl
  have e3 : insertMsg (ascMsgs 3 MAX_MESSAGES) (mkMsg 503) = ascMsgs 4 MAX_MESSAGES :=
    insertMsg_shift 3 503 4 rfl rfl
  have e4 : insertMsg (ascMsgs 4 MAX_MESSAGES) (mkMsg 504) = ascMsgs 5 MAX_MESSAGES :=
    insertMsg_shift 4 504 5 rfl rfl
  have e5 : insertMsg (ascMsgs 5 MAX_MESSAGES) (mkMsg 505) = ascMsgs 6 MAX_MESSAGES :=
    insertMsg_shift 5 505 6 rfl rfl
  have g5 : List.foldl insertMsg (ascMsgs 5 MAX_MESSAGES) [mkMsg 505] = ascMsgs 6 MAX_MESSAGES :=
    (List.foldl_cons ..).trans
      ((congrArg (fun b => List.foldl insertMsg b []) e5).trans (List.foldl_nil ..))
  have g4 : List.foldl insertMsg (ascMsgs 4 MAX_MESSAGES) [mkMsg 504, mkMsg 505] =
      ascMsgs 6 MAX_MESSAGES :=
    (List.foldl_cons ..).trans
      ((congrArg (fun b => List.foldl insertMsg b [mkMsg 505]) e4).trans g5)
  have g3 : List.foldl insertMsg (ascMsgs 3 MAX_MESSAGES) [mkMsg 503, mkMsg 504, mkMsg 505] =
      ascMsgs 6 MAX_MESSAGES :=
    (List.foldl_cons ..).trans
      ((congrArg (fun b => List.foldl insertMsg b [mkMsg 504, mkMsg 505]) e3).trans g4)
  have g2 : List.foldl insertMsg (ascMsgs 2 MAX_MESSAGES)
      [mkMsg 502, mkMsg 503, mkMsg 504, mkMsg 505] = ascMsgs 6 MAX_MESSAGES :=
    (List.foldl_cons ..).trans
      ((congrArg (fun b => List.foldl insertMsg b [mkMsg 503, mkMsg 504, mkMsg 505]) e2).trans g3)
  have g1 : List.foldl insertMsg (ascMsgs 1 MAX_MESSAGES)
      [mkMsg 501, mkMsg 502, mkMsg 503, mkMsg 504, mkMsg 505] = ascMsgs 6 MAX_MESSAGES :=
    (List.foldl_cons ..).trans
      ((congrArg (fun b => List.foldl insertMsg b [mkMsg 502, mkMsg 503, mkMsg 504, mkMsg 505])
        e1).trans g2)
  have h1 : List.foldl insertMsg [] (ascMsgs 1 (MAX_MESSAGES + 5)) =
      List.foldl insertMsg [] (ascMsgs 1 MAX_MESSAGES ++ ascMsgs 501 5) :=
    congrArg (List.foldl insertMsg []) hsplit
  have h2 : List.foldl insertMsg [] (ascMsgs 1 MAX_MESSAGES ++ ascMsgs 501 5) =
      List.foldl insertMsg (List.foldl insertMsg [] (ascMsgs 1 MAX_MESSAGES)) (ascMsgs 501 5) :=
    List.foldl_append ..
  have h3 : List.foldl insertMsg (List.foldl insertMsg [] (ascMsgs 1 MAX_MESSAGES))
      (ascMsgs 501 5) = List.foldl insertMsg (ascMsgs 1 MAX_MESSAGES) (ascMsgs 501 5) :=
    congrArg (fun b => List.foldl insertMsg b (ascMsgs 501 5))
      (foldl_asc_fill 1 MAX_MESSAGES (le_refl _))
  have h4 : List.foldl insertMsg (ascMsgs 1 MAX_MESSAGES) (ascMsgs 501 5) =
      List.foldl insertMsg (ascMsgs 1 MAX_MESSAGES)
        [mkMsg 501, mkMsg 502, mkMsg 503, mkMsg 504, mkMsg 505] :=
    congrArg (List.foldl insertMsg (ascMsgs 1 MAX_MESSAGES)) hlist
  exact h1.trans (h2.trans (h3.trans (h4.trans g1)))

/-- C3 counterexample: a sequence of `MAX_MESSAGES + 5` accepted messages
(timestamps 2..505 and then 1) after which exactly `MAX_MESSAGES` are
stored but they are NOT the most recent by timestamp: the stored set
retains the overall-oldest message (ts 1) while a strictly more recent
inserted message (ts 6) was evicted. -/
theorem c3_retention_counterexample :
    (ascMsgs 2 504 ++ [mkMsg 1]).length = MAX_MESSAGES + 5 ∧
    (List.foldl insertMsg [] (ascMsgs 2 504 ++ [mkMsg 1])).length = MAX_MESSAGES ∧
    mkMsg 1 ∈ List.foldl insertMsg [] (ascMsgs 2 504 ++ [mkMsg 1]) ∧
    mkMsg 6 ∉ List.foldl insertMsg [] (ascMsgs 2 504 ++ [mkMsg 1]) ∧
    mkMsg 6 ∈ ascMsgs 2 504 ++ [mkMsg 1] ∧
    (mkMsg 1).ts < (mkMsg 6).ts := by
  have hsplit : ascMsgs 2 504 = ascMsgs 2 MAX_MESSAGES ++ ascMsgs 502 4 := by
    unfold ascMsgs
    rw [← List.map_append]
    rw [show (502 : Nat) = 2 + 1 * MAX_MESSAGES from rfl, List.range'_append]
    rw [show (4 + MAX_MESSAGES : Nat) = 504 from rfl]
  have hlist : ascMsgs 502 4 = [mkMsg 502, mkMsg 503, mkMsg 504, mkMsg 505] := rfl
  have e2 : insertMsg (ascMsgs 2 MAX_MESSAGES) (mkMsg 502) = ascMsgs 3 MAX_MESSAGES :=
    insertMsg_shift 2 502 3 rfl rfl
  have e3 : insertMsg (ascMsgs 3 MAX_MESSAGES) (mkMsg 503) = ascMsgs 4 MAX_MESSAGES :=
    insertMsg_shift 3 503 4 rfl rfl
  have e4 : insertMsg (ascMsgs 4 MAX_MESSAGES) (mkMsg 504) = ascMsgs 5 MAX_MESSAGES :=
    insertMsg_shift 4 504 5 rfl rfl
  have e5 : insertMsg (ascMsgs 5 MAX_MESSAGES) (mkMsg 505) = ascMsgs 6 MAX_MESSAGES :=
    insertMsg_shift 5 505 6 rfl rfl
  have g5 : List.foldl insertMsg (ascMsgs 5 MAX_MESSAGES) [mkMsg 505] = ascMsgs 6 MAX_MESSAGES :=
    (List.foldl_cons ..).trans
      ((congrArg (fun b => List.foldl insertMsg b []) e5).trans (List.foldl_nil ..))
  have g4 : List.foldl insertMsg (ascMsgs 4 MAX_MESSAGES) [mkMsg 504, mkMsg 505] =
      ascMsgs 6 MAX_MESSAGES :=
    (List.foldl_cons ..).trans
      ((congrArg (fun b => List.foldl insertMsg b [mkMsg 505]) e4).trans g5)
  have g3 : List.foldl insertMsg (ascMsgs 3 MAX_MESSAGES) [mkMsg 503, mkMsg 504, mkMsg 505] =
      ascMsgs 6 MAX_MESSAGES :=
    (List.foldl_cons ..).trans
      ((congrArg (fun b => List.foldl insertMsg b [mkMsg 504, mkMsg 505]) e3).trans g4)
  have g2 : List.foldl insertMsg (ascMsgs 2 MAX_MESSAGES)
      [mkMsg 502, mkMsg 503, mkMsg 504, mkMsg 505] = ascMsgs 6 MAX_MESSAGES :=
    (List.foldl_cons ..).trans
      ((congrArg (fun b => List.foldl insertMsg b [mkMsg 503, mkMsg 504, mkMsg 505]) e2).trans g3)
  have inner : List.foldl insertMsg [] (ascMsgs 2 504) = ascMsgs 6 MAX_MESSAGES :=
    (congrArg (List.foldl insertMsg []) hsplit).trans
      ((List.foldl_append ..).trans
        ((congrArg (fun b => List.foldl insertMsg b (ascMsgs 502 4))
            (foldl_asc_fill 2 MAX_MESSAGES (le_refl _))).trans
          ((congrArg (List.foldl insertMsg (ascMsgs 2 MAX_MESSAGES)) hlist).trans g2)))
  have hmin : insertMsg (ascMsgs 6 MAX_MESSAGES) (mkMsg 1) =
      mkMsg 1 :: (ascMsgs 6 MAX_MESSAGES).tail :=
    insertMsg_min_over (sorted_ascMsgs 6 MAX_MESSAGES) (length_ascMsgs 6 MAX_MESSAGES)
      (freshAsc (Or.inl (by decide)))
      (fun x hx => lt_of_lt_of_le (by decide) (ascMsgs_ts_ge x hx))
  have hfold : List.foldl insertMsg [] (ascMsgs 2 504 ++ [mkMsg 1]) =
      mkMsg 1 :: (ascMsgs 6 MAX_MESSAGES).tail :=
    (List.foldl_append ..).trans
      ((congrArg (fun b => List.foldl insertMsg b [mkMsg 1]) inner).trans
        ((List.foldl_cons ..).trans
          ((congrArg (fun b => List.foldl insertMsg b []) hmin).trans (List.foldl_nil ..))))
  have htail : (ascMsgs 6 MAX_MESSAGES).tail = ascMsgs 7 499 := by
    rw [show MAX_MESSAGES = 499 + 1 from rfl, ascMsgs_tail]
  refine ⟨?_, ?_, ?_, ?_, ?_, by decide⟩
  · rw [List.length_append, List.length_singleton, length_ascMsgs]; decide
  · rw [hfold, htail, List.length_cons, length_ascMsgs]; decide
  · rw [hfold]
    exact List.mem_cons_self _ _
  · rw [hfold, htail]
    intro hmem
    rcases List.mem_cons.mp hmem with heq | hmem2
    · exact absurd (mkMsg_eq_iff heq) (by decide)
    · obtain ⟨i, hi, hieq⟩ := List.mem_map.mp hmem2
      have : i = 6 := mkMsg_eq_iff hieq
      subst this
      have := (List.mem_range'_1.mp hi).1
      omega
  · refine List.mem_append_left _ ?_
    unfold ascMsgs
    refine List.mem_map.mpr ⟨6, ?_, rfl⟩
    rw [List.mem_range'_1]
    omega

end SkateChat
